import Mathlib

/-!
Verification of the AION pipeline interpreter core: the schema validator
(`validators.py`), the pipeline executor and explainer (`interpreter.py`),
and the task handlers (`filter.py`, `sort.py`, `transform.py`,
`aggregate.py`, `export.py`, `model_call.py`).

Python values appearing in programs and table cells are embedded as `Json`.
A pandas `DataFrame` is embedded as `Table`: an explicit row count (the
index length) plus an ordered list of named columns.  Python exceptions are
embedded as `Except String` results carrying `str(e)`.
-/

/-- JSON-shaped Python value: the payload of programs, tasks and table cells. -/
inductive Json where
  | s (v : String)
  | i (v : Int)
  | b (v : Bool)
  | null
  | arr (items : List Json)
  | obj (entries : List (String × Json))
deriving Repr

/-- Python `repr(x)` for the embedded values (string escaping not modelled;
the values reaching it in this development contain no quotes). -/
def Json.pyRepr : Json → String
  | .s v => "'" ++ v ++ "'"
  | .i v => toString v
  | .b true => "True"
  | .b false => "False"
  | .null => "None"
  | .arr items => "[" ++ String.intercalate ", " (items.attach.map (fun x => x.1.pyRepr)) ++ "]"
  | .obj kvs => "\x7b" ++ String.intercalate ", "
      (kvs.attach.map (fun x => "'" ++ x.1.1 ++ "': " ++ x.1.2.pyRepr)) ++ "\x7d"
decreasing_by
  · have h := List.sizeOf_lt_of_mem x.2
    simp only [Json.arr.sizeOf_spec]
    omega
  · have h := List.sizeOf_lt_of_mem x.2
    have h2 : sizeOf x.1 = 1 + sizeOf x.1.1 + sizeOf x.1.2 := by
      obtain ⟨a, b⟩ := x.1
      simp
    simp only [Json.obj.sizeOf_spec]
    omega

/-- Python `str(x)`: identity on strings, `repr` on containers, Python
rendering of the other scalars. -/
def Json.pyStr : Json → String
  | .s v => v
  | .i v => toString v
  | .b true => "True"
  | .b false => "False"
  | .null => "None"
  | j => j.pyRepr

/-- Lookup in a Python dict (first binding wins; Python dicts cannot hold
duplicate keys, so assoc lists with duplicates never arise from real input). -/
def lookupJ (kvs : List (String × Json)) (k : String) : Option Json :=
  (kvs.find? (fun c => c.1 == k)).map Prod.snd

/-- Dict lookup through a `Json` value; `none` on a non-dict. -/
def Json.lookup (j : Json) (k : String) : Option Json :=
  match j with
  | .obj kvs => lookupJ kvs k
  | _ => none

/-- Python truthiness test (`if not x`) for the embedded values. -/
def pyFalsy : Json → Bool
  | .s v => v == ""
  | .i v => v == 0
  | .b v => !v
  | .null => true
  | .arr items => items.isEmpty
  | .obj kvs => kvs.isEmpty

/-! String primitives are implemented over the character list `String.data`
(Python strings are character sequences; the built-in `String` functions of
Lean do not evaluate inside the kernel). -/

/-- Python whitespace characters recognised by `str.strip`. -/
def isPyWs (c : Char) : Bool :=
  c == ' ' || c == '\t' || c == '\n' || c == '\r' || c == '\x0B' || c == '\x0C'

/-- Python `a.startswith(b)`. -/
def pyStartsWith (a b : String) : Bool := List.isPrefixOf b.data a.data

/-- Python `a.endswith(b)`. -/
def pyEndsWith (a b : String) : Bool := List.isPrefixOf b.data.reverse a.data.reverse

/-- Python `b in a` for a character. -/
def pyHasChar (a : String) (c : Char) : Bool := a.data.contains c

/-- Python `b in a` substring test (`b` occurs contiguously in `a`). -/
def pySubInfix (b : List Char) : List Char → Bool
  | [] => b.isEmpty
  | c :: cs => List.isPrefixOf b (c :: cs) || pySubInfix b cs

/-- Python `b in a` on strings. -/
def pyHasSub (a b : String) : Bool := pySubInfix b.data a.data

/-- ASCII `str.lower` (the format and order strings it is applied to are
ASCII). -/
def pyLower (s : String) : String :=
  ⟨s.data.map (fun c => if 'A' ≤ c && c ≤ 'Z' then Char.ofNat (c.toNat + 32) else c)⟩

/-- ASCII `str.upper` (applied to task kind names). -/
def pyUpper (s : String) : String :=
  ⟨s.data.map (fun c => if 'a' ≤ c && c ≤ 'z' then Char.ofNat (c.toNat - 32) else c)⟩

/-- Python slice `s[:n]`. -/
def pyTake (s : String) (n : Nat) : String := ⟨s.data.take n⟩

/-- A pandas DataFrame: the index length (`nrows`) and the ordered,
uniquely-named columns with their cell lists. -/
structure Table where
  nrows : Nat
  cols : List (String × List Json)
deriving Repr

/-- pandas `DataFrame()` with no rows and no columns. -/
def Table.emptyTable : Table := ⟨0, []⟩

/-- pandas `df.empty`: true when either axis has length zero. -/
def Table.isEmpty (t : Table) : Bool := t.nrows == 0 || t.cols.isEmpty

/-- Python `name in df.columns`. -/
def Table.hasCol (t : Table) (name : String) : Bool :=
  t.cols.any (fun c => c.1 == name)

/-- pandas `df[name]` as a cell list (empty list when the column is absent;
callers guard with `hasCol`). -/
def Table.getColD (t : Table) (name : String) : List Json :=
  ((t.cols.find? (fun c => c.1 == name)).map Prod.snd).getD []

/-- pandas `df[name] = values`: overwrite the column in place if present,
otherwise append it as the last column. -/
def Table.setCol (t : Table) (name : String) (vals : List Json) : Table :=
  if t.hasCol name then
    ⟨t.nrows, t.cols.map (fun c => if c.1 == name then (name, vals) else c)⟩
  else
    ⟨t.nrows, t.cols ++ [(name, vals)]⟩

/-- pandas `df.drop(columns=[name])`. -/
def Table.dropCol (t : Table) (name : String) : Table :=
  ⟨t.nrows, t.cols.filter (fun c => c.1 != name)⟩

/-- Row-filtering by a boolean mask (`df[mask]`). -/
def applyMask : List Bool → List Json → List Json
  | k :: ks, v :: vs => if k then v :: applyMask ks vs else applyMask ks vs
  | _, _ => []

/-- `df[mask]`: keep the rows whose mask entry is true, in order. -/
def Table.maskRows (t : Table) (keep : List Bool) : Table :=
  ⟨(keep.filter id).length, t.cols.map (fun c => (c.1, applyMask keep c.2))⟩

/-! ## Transform task (`src/aion/tasks/transform.py`) -/

/-- The literal-vs-column heuristic of `transform.py` (lines 48-57): a string
that is not a column is accepted as a literal when it is empty or
whitespace-only, has length at most 3, starts or ends with a space, or
contains one of the characters left paren, right paren, dash, colon. -/
def isLiteralFragment (field : String) : Bool :=
  field.data.all isPyWs
  || field.data.length ≤ 3
  || pyStartsWith field " "
  || pyEndsWith field " "
  || pyHasChar field '('
  || pyHasChar field ')'
  || pyHasChar field '-'
  || pyHasChar field ':'

/-- The concat validation loop rejects exactly the string items that name no
column and fail the literal heuristic (`transform.py` lines 45-62). -/
def concatBad (data : Table) : Json → Bool
  | .s f => !data.hasCol f && !isLiteralFragment f
  | _ => false

/-- Field name held by a rejected concat item (rejected items are always
strings). -/
def badName : Json → String
  | .s f => f
  | _ => ""

/-- Per-row contribution of one concat item (`transform.py` lines 66-74):
a string naming a column contributes that column's cell rendered by `str`,
any other string contributes itself, a non-string contributes its `str` form. -/
def concatContribution (data : Table) (r : Nat) (it : Json) : String :=
  match it with
  | .s f => if data.hasCol f then ((data.getColD f).getD r Json.null).pyStr else f
  | v => v.pyStr

/-- The concat column: `result[new_field] = ""` followed by in-order `+=` of
each item's contribution, per row (`transform.py` lines 64-74). -/
def buildConcat (data : Table) (items : List Json) : List Json :=
  (List.range data.nrows).map
    (fun r => Json.s (items.foldl (fun acc it => acc ++ concatContribution data r it) ""))

/-- Add a source field to `fields_to_remove` (a Python set; membership is all
that is ever observed of it, since dropping distinct columns commutes). -/
def insertName (s : String) (l : List String) : List String :=
  if s ∈ l then l else l ++ [s]

/-- One iteration of the mapping loop of `transform_task` (`transform.py`
lines 26-81), acting on the running `result` table and `fields_to_remove`.
Reads (column lookups, concat cells) go against the immutable `data`
snapshot, writes go to `result`, exactly as in the source. -/
def applyEntry (data result : Table) (toRemove : List String) (nf : String) :
    Json → Except String (Table × List String)
  | .s s =>
    if data.hasCol s then
      .ok (result.setCol nf (data.getColD s), insertName s toRemove)
    else
      .error ("Source field '" ++ s ++ "' not found in data")
  | .obj kvs =>
    match lookupJ kvs "concat" with
    | some c =>
      match c with
      | .arr items =>
        match items.find? (concatBad data) with
        | some it => .error ("Field '" ++ badName it ++ "' not found in data")
        | none => .ok (result.setCol nf (buildConcat data items), toRemove)
      | _ => .error "concat must be a list of fields"
    | none => .error ("Unknown transformation: " ++ Json.pyStr (.obj kvs))
  | .arr xs =>
    -- constant branch hit with a list value: pandas broadcasts a
    -- length-matching list per row and otherwise raises
    if xs.length == data.nrows then
      .ok (result.setCol nf xs, toRemove)
    else
      .error ("Length of values (" ++ toString xs.length
        ++ ") does not match length of index (" ++ toString data.nrows ++ ")")
  | v => .ok (result.setCol nf (List.replicate data.nrows v), toRemove)

/-- The mapping loop of `transform_task`: apply the entries in insertion
order, threading `result` and `fields_to_remove`; any failure aborts. -/
def transformEntries (data : Table) :
    List (String × Json) → Table → List String → Except String (Table × List String)
  | [], result, toRemove => .ok (result, toRemove)
  | (nf, src) :: rest, result, toRemove =>
    match applyEntry data result toRemove nf src with
    | .ok (r2, t2) => transformEntries data rest r2 t2
    | .error e => .error e

/-- Final removal loop of `transform_task` (lines 83-86): drop each queued
field if it is still a column of the result. -/
def removeFields (result : Table) (toRemove : List String) : Table :=
  toRemove.foldl (fun r f => if r.hasCol f then r.dropCol f else r) result

/-- `transform_task` (`transform.py`): early return on an empty table, then
the mapping loop over an immutable snapshot, then the removal loop. -/
def transform_task (data : Table) (task : Json) : Except String Table :=
  if data.isEmpty then .ok data
  else
    match task.lookup "mapping" with
    | none => .error "'mapping'"
    | some (.obj mapping) =>
      match transformEntries data mapping data [] with
      | .ok (result, toRemove) => .ok (removeFields result toRemove)
      | .error e => .error e
    | some _ => .error "'items'"

/-! ## Filter task (`src/aion/tasks/filter.py`) -/

/-- Python numeric view of a value (`bool` is an `int` in Python). -/
def numOf : Json → Option Int
  | .i v => some v
  | .b true => some 1
  | .b false => some 0
  | _ => none

/-- Python `==` on cell values: numeric equality across `int`/`bool`, string
and `None` equality, structural equality on containers (the elementwise
numeric coercion inside containers is not modelled; no such comparison is
observed by the claims). -/
def pyEq (x y : Json) : Bool :=
  match numOf x, numOf y with
  | some a, some b => a == b
  | _, _ =>
    match x, y with
    | .s a, .s b => a == b
    | .null, .null => true
    | _, _ => false

/-- Comparison used by pandas `<`/`>` on cells: numbers with numbers,
strings with strings, anything else raises a `TypeError`. -/
def pyCmp (x y : Json) : Except String Ordering :=
  match numOf x, numOf y with
  | some a, some b => .ok (compare a b)
  | _, _ =>
    match x, y with
    | .s a, .s b => .ok (compare a b)
    | _, _ => .error "'<' not supported between instances"

/-- The `.str` accessor predicates (`contains`/`startswith`/`endswith` with
`na=False`): a non-string pattern raises, a non-string cell yields `False`. -/
def strMatch (x v : Json) (pred : String → String → Bool) : Except String Bool :=
  match v with
  | .s pat => .ok (match x with | .s a => pred a pat | _ => false)
  | _ => .error "expected a string object"

/-- The keys of `op_map` in `filter.py` lines 29-41, in source order. -/
def filterOps : List String :=
  ["==", "!=", ">", ">=", "<", "<=", "in", "not in", "contains", "startswith", "endswith"]

/-- `op_str not in op_map`: only these string operators are supported. -/
def isSupportedOp : Json → Bool
  | .s s => filterOps.contains s
  | _ => false

/-- One row of the filter mask: the operator of `op_map` applied to the cell
and the condition value.  `contains` is modelled as a substring test (the
pandas default is a regular-expression search; no claim evaluates it on a
pattern containing regex metacharacters). -/
def applyOp (op : String) (x v : Json) : Except String Bool :=
  if op == "==" then .ok (pyEq x v)
  else if op == "!=" then .ok (!pyEq x v)
  else if op == ">" then (pyCmp x v).map (fun o => o == .gt)
  else if op == ">=" then (pyCmp x v).map (fun o => !(o == .lt))
  else if op == "<" then (pyCmp x v).map (fun o => o == .lt)
  else if op == "<=" then (pyCmp x v).map (fun o => !(o == .gt))
  else if op == "in" then
    match v with
    | .arr ys => .ok (ys.any (pyEq x))
    | _ => .error "only list-like objects are allowed to be passed to isin()"
  else if op == "not in" then
    match v with
    | .arr ys => .ok (!ys.any (pyEq x))
    | _ => .error "only list-like objects are allowed to be passed to isin()"
  else if op == "contains" then strMatch x v pyHasSub
  else if op == "startswith" then strMatch x v pyStartsWith
  else if op == "endswith" then strMatch x v pyEndsWith
  else .error ("Unsupported operator: " ++ op)

/-- `filter_task` (`filter.py`): empty-table early return, sequential key
access on the condition, the operator-support check of line 43, the
field-existence check of line 49, then the row mask.  A raised Python
exception is an `.error` carrying `str(e)`; subscripting a non-dict
condition raises a `TypeError` (collapsed to one message here, unobserved
by the claims). -/
def filter_task (data : Table) (task : Json) : Except String Table :=
  if data.isEmpty then .ok data
  else
    match task.lookup "condition" with
    | none => .error "'condition'"
    | some (.obj c) =>
      match lookupJ c "field", lookupJ c "operator", lookupJ c "value" with
      | none, _, _ => .error "'field'"
      | _, none, _ => .error "'operator'"
      | _, _, none => .error "'value'"
      | some fieldJ, some opJ, some value =>
        if !isSupportedOp opJ then
          .error ("Unsupported operator: " ++ opJ.pyStr)
        else
          match fieldJ with
          | .s field =>
            if data.hasCol field then
              match (List.range data.nrows).mapM
                  (fun r => applyOp opJ.pyStr ((data.getColD field).getD r Json.null) value) with
              | .ok mask => .ok (data.maskRows mask)
              | .error e => .error e
            else .error ("Field '" ++ field ++ "' not found in data")
          | _ => .error ("Field '" ++ fieldJ.pyStr ++ "' not found in data")
    | some _ => .error "TypeError"

/-! ## Sort task (`src/aion/tasks/sort.py`) -/

/-- Insertion of an index into a key-sorted index list. -/
def insertSorted (le : Nat → Nat → Bool) (i : Nat) : List Nat → List Nat
  | [] => [i]
  | j :: js => if le i j then i :: j :: js else j :: insertSorted le i js

/-- Sort indices by a boolean `le` (deterministic; the claims never observe
the relative order of equal sort keys). -/
def sortIdx (le : Nat → Nat → Bool) (l : List Nat) : List Nat :=
  l.foldr (insertSorted le) []

/-- Reorder the rows of a table by the given index list. -/
def Table.permuteRows (t : Table) (idx : List Nat) : Table :=
  ⟨t.nrows, t.cols.map (fun c => (c.1, idx.map (fun r => c.2.getD r Json.null)))⟩

/-- `df.sort_values(by=field, ascending=asc)`: homogeneous numeric or string
keys sort, mixed keys raise a `TypeError`. -/
def sortRows (data : Table) (field : String) (asc : Bool) : Except String Table :=
  let keys := data.getColD field
  let idx := List.range data.nrows
  if keys.all (fun k => (numOf k).isSome) then
    let key := fun r => (numOf (keys.getD r Json.null)).getD 0
    .ok (data.permuteRows (sortIdx
      (fun a b => if asc then decide (key a ≤ key b) else decide (key b ≤ key a)) idx))
  else if keys.all (fun k => match k with | .s _ => true | _ => false) then
    let key := fun r => (keys.getD r Json.null).pyStr
    .ok (data.permuteRows (sortIdx
      (fun a b => if asc then decide (key a ≤ key b) else decide (key b ≤ key a)) idx))
  else .error "'<' not supported between instances"

/-- `sort_task` (`sort.py`): empty-table early return, key accesses, the
field-existence check of line 27, `order.lower() == "asc"` of line 31
(a non-string order raises `AttributeError: 'lower'`). -/
def sort_task (data : Table) (task : Json) : Except String Table :=
  if data.isEmpty then .ok data
  else
    match task.lookup "operation" with
    | none => .error "'operation'"
    | some (.obj op) =>
      match lookupJ op "field" with
      | none => .error "'field'"
      | some fieldJ =>
        let order := (lookupJ op "order").getD (Json.s "asc")
        match fieldJ with
        | .s field =>
          if data.hasCol field then
            match order with
            | .s o => sortRows data field (pyLower o == "asc")
            | _ => .error "'lower'"
          else .error ("Field '" ++ field ++ "' not found in data")
        | _ => .error ("Field '" ++ fieldJ.pyStr ++ "' not found in data")
    | some _ => .error "TypeError"

/-! ## Aggregate task (`src/aion/tasks/aggregate.py`) -/

/-- Column membership test for a `group_by` element (a non-string element is
never a column; column labels here are strings). -/
def matchesCol (data : Table) : Json → Bool
  | .s f => data.hasCol f
  | _ => false

/-- Group key of one row: the cells of the `group_by` columns. -/
def rowKey (data : Table) (gfields : List String) (r : Nat) : List Json :=
  gfields.map (fun f => (data.getColD f).getD r Json.null)

/-- Structural cell-list equality used to collect groups. -/
def keyEq (a b : List Json) : Bool :=
  a.length == b.length && (a.zip b).all (fun p => pyEq p.1 p.2)

/-- Group the row indices by key, in first-occurrence order (pandas sorts
group keys by default; the claims never observe group order). -/
def groupRows (data : Table) (gfields : List String) : List (List Json × List Nat) :=
  (List.range data.nrows).foldl (fun acc r =>
    let k := rowKey data gfields r
    if acc.any (fun g => keyEq g.1 k) then
      acc.map (fun g => if keyEq g.1 k then (g.1, g.2 ++ [r]) else g)
    else acc ++ [(k, [r])]) []

/-- One aggregation function applied to the cells of a group.  `count`,
`sum` (numeric sum, or string concatenation as pandas does on object
columns), `min`/`max` on homogeneous cells; aggregations producing floats
(such as `mean`) are outside this integer-valued model and are mapped to the
error channel (unobserved by the claims, which stop before aggregation). -/
def aggCells (fn : Json) (cells : List Json) : Except String Json :=
  match fn with
  | .s "count" => .ok (.i cells.length)
  | .s "sum" =>
    if cells.all (fun c => (numOf c).isSome) then
      .ok (.i (cells.foldl (fun a c => a + (numOf c).getD 0) 0))
    else if cells.all (fun c => match c with | .s _ => true | _ => false) then
      .ok (.s (cells.foldl (fun a c => a ++ c.pyStr) ""))
    else .error "unsupported operand type(s) for +"
  | .s "min" =>
    match cells with
    | [] => .error "min() arg is an empty sequence"
    | c0 :: rest => rest.foldlM (fun a c => (pyCmp c a).map (fun o => if o == .lt then c else a)) c0
  | .s "max" =>
    match cells with
    | [] => .error "max() arg is an empty sequence"
    | c0 :: rest => rest.foldlM (fun a c => (pyCmp c a).map (fun o => if o == .gt then c else a)) c0
  | _ => .error (Json.pyStr fn ++ " is an unknown string function")

/-- `grouped.agg(aggregations).reset_index()`: group-key columns first, then
one aggregated column per aggregation entry, one row per group. -/
def doAggregate (data : Table) (gfields : List String)
    (aggEntries : List (String × Json)) : Except String Table :=
  let groups := groupRows data gfields
  match aggEntries.mapM (fun e =>
      (groups.mapM (fun g =>
        aggCells e.2 (g.2.map (fun r => (data.getColD e.1).getD r Json.null)))).map
        (fun col => (e.1, col))) with
  | .error e => .error e
  | .ok aggCols =>
    .ok ⟨groups.length,
      (List.range gfields.length).map
        (fun j => (gfields.getD j "", groups.map (fun g => g.1.getD j Json.null))) ++ aggCols⟩

/-- `aggregate_task` (`aggregate.py`): empty-table early return, the
truthiness checks of lines 25-29 on `group_by` and `aggregations`, the
field-existence checks of lines 32-39, then the groupby.  Iterating a
truthy non-list `group_by` is collapsed to one `TypeError` message. -/
def aggregate_task (data : Table) (task : Json) : Except String Table :=
  if data.isEmpty then .ok data
  else
    let groupBy := (task.lookup "group_by").getD (.arr [])
    let aggs := (task.lookup "aggregations").getD (.obj [])
    if pyFalsy groupBy then .error "Aggregate task must specify 'group_by' fields"
    else if pyFalsy aggs then .error "Aggregate task must specify 'aggregations'"
    else
      match groupBy, aggs with
      | .arr gfields, .obj aggEntries =>
        match gfields.find? (fun f => !matchesCol data f) with
        | some f => .error ("Group by field '" ++ f.pyStr ++ "' not found in data")
        | none =>
          match (aggEntries.map Prod.fst).find? (fun f => !data.hasCol f) with
          | some f => .error ("Aggregation field '" ++ f ++ "' not found in data")
          | none => doAggregate data (gfields.filterMap (fun f => match f with | .s s => some s | _ => none)) aggEntries
      | _, _ => .error "TypeError"

/-! ## Export task (`src/aion/tasks/export.py`) -/

/-- `export_task` (`export.py`): empty-table early return, the falsy
`file_path` check of line 26, then the format dispatch of lines 33-42.  The
file write itself is an external side effect (spec section 6) and is not
modelled; every successful branch returns the input table. -/
def export_task (data : Table) (task : Json) : Except String Table :=
  if data.isEmpty then .ok data
  else
    match task.lookup "file_path" with
    | none => .error "Export task must specify 'file_path'"
    | some fp =>
      if pyFalsy fp then .error "Export task must specify 'file_path'"
      else
        match fp with
        | .s _ =>
          match (task.lookup "format").getD (Json.s "csv") with
          | .s f =>
            if pyLower f == "csv" || pyLower f == "json"
                || pyLower f == "excel" || pyLower f == "parquet" then
              .ok data
            else .error ("Unsupported export format: " ++ f)
          | _ => .error "'lower'"
        | _ => .error "TypeError"

/-! ## Model-call task (`src/aion/tasks/model_call.py`) -/

/-- Per-row output of the provider dispatch of lines 102-113, modelled in an
environment without API keys (the external-provider boundary of spec
section 6): `openai`/`anthropic` raise a missing-key `ValueError` which the
per-row handler catches and renders, every other provider falls through to
the in-process simulator. -/
def providerOutput (provider : String) (prompt : Json) (inputText : String) : String :=
  if provider == "openai" then
    "[Error: OPENAI_API_KEY environment variable not set]"
  else if provider == "anthropic" then
    "[Error: ANTHROPIC_API_KEY environment variable not set]"
  else
    "[AI: " ++ prompt.pyStr ++ "] " ++ inputText

/-- `model_call_task` (`model_call.py`): empty-table early return, required
`prompt`, then either a per-row provider call over a truthy existing
`input_field` or a broadcast `"[AI: <prompt>]"` column. -/
def model_call_task (data : Table) (task : Json) : Except String Table :=
  if data.isEmpty then .ok data
  else
    match task.lookup "prompt" with
    | none => .error "'prompt'"
    | some prompt =>
      let outputField :=
        match task.lookup "output_field" with
        | some (.s s) => s
        | some j => j.pyStr
        | none => "model_output"
      let provider :=
        match task.lookup "provider" with
        | some (.s s) => s
        | some j => j.pyStr
        | none => "simulate"
      match task.lookup "input_field" with
      | some (.s f) =>
        if f != "" && data.hasCol f then
          .ok (data.setCol outputField ((List.range data.nrows).map
            (fun r => Json.s (providerOutput provider prompt
              (((data.getColD f).getD r Json.null).pyStr)))))
        else
          .ok (data.setCol outputField
            (List.replicate data.nrows (Json.s ("[AI: " ++ prompt.pyStr ++ "]"))))
      | _ =>
        .ok (data.setCol outputField
          (List.replicate data.nrows (Json.s ("[AI: " ++ prompt.pyStr ++ "]"))))

/-! ## Schema validator (`src/aion/core/validators.py`) -/

/-- A `ValidationError`: the locator path and the message (the optional
`value` field is never set by the validator). -/
structure VError where
  path : String
  message : String
deriving Repr, DecidableEq

/-- The recognised task kinds (`valid_task_types`). -/
def validTaskTypes : List String :=
  ["filter", "sort", "transform", "model_call", "aggregate", "export"]

/-- Rendering of the `valid_task_types` set inside the unknown-kind message
(a Python set repr; modelled in insertion order). -/
def validTypesRepr : String :=
  "\x7b'filter', 'sort', 'transform', 'model_call', 'aggregate', 'export'\x7d"

/-- `_validate_filter_task`: required `condition` object with `field`,
`operator`, `value` (the required-subkey set is iterated in insertion
order of the literal). -/
def validateFilterTask (kvs : List (String × Json)) (path : String) : List VError :=
  match lookupJ kvs "condition" with
  | none => [⟨path ++ ".condition", "Filter task must have a 'condition' field"⟩]
  | some (.obj c) =>
    (if (lookupJ c "field").isNone
     then [(⟨path ++ ".condition.field", "Condition must have 'field' field"⟩ : VError)] else [])
    ++ (if (lookupJ c "operator").isNone
        then [(⟨path ++ ".condition.operator", "Condition must have 'operator' field"⟩ : VError)] else [])
    ++ (if (lookupJ c "value").isNone
        then [(⟨path ++ ".condition.value", "Condition must have 'value' field"⟩ : VError)] else [])
  | some _ => [⟨path ++ ".condition", "Condition must be a dictionary"⟩]

/-- `_validate_sort_task`: required `operation` object with `field`;
`order`, when present, must be `"asc"` or `"desc"`. -/
def validateSortTask (kvs : List (String × Json)) (path : String) : List VError :=
  match lookupJ kvs "operation" with
  | none => [⟨path ++ ".operation", "Sort task must have an 'operation' field"⟩]
  | some (.obj op) =>
    (if (lookupJ op "field").isNone
     then [(⟨path ++ ".operation.field", "Sort operation must have a 'field'"⟩ : VError)] else [])
    ++ (match lookupJ op "order" with
        | none => []
        | some (.s "asc") => []
        | some (.s "desc") => []
        | some _ => [(⟨path ++ ".operation.order", "Sort order must be 'asc' or 'desc'"⟩ : VError)])
  | some _ => [⟨path ++ ".operation", "Operation must be a dictionary"⟩]

/-- `_validate_transform_task`: required `mapping`, which must be an object. -/
def validateTransformTask (kvs : List (String × Json)) (path : String) : List VError :=
  match lookupJ kvs "mapping" with
  | none => [⟨path ++ ".mapping", "Transform task must have a 'mapping' field"⟩]
  | some (.obj _) => []
  | some _ => [⟨path ++ ".mapping", "Mapping must be a dictionary"⟩]

/-- `_validate_model_call_task`: required `prompt`. -/
def validateModelCallTask (kvs : List (String × Json)) (path : String) : List VError :=
  if (lookupJ kvs "prompt").isNone
  then [⟨path ++ ".prompt", "Model call task must have 'prompt' field"⟩] else []

/-- `_validate_aggregate_task`: required list `group_by` (early return when
missing or mistyped), then required object `aggregations`. -/
def validateAggregateTask (kvs : List (String × Json)) (path : String) : List VError :=
  match lookupJ kvs "group_by" with
  | none => [⟨path ++ ".group_by", "Aggregate task must have 'group_by' field"⟩]
  | some (.arr _) =>
    match lookupJ kvs "aggregations" with
    | none => [⟨path ++ ".aggregations", "Aggregate task must have 'aggregations' field"⟩]
    | some (.obj _) => []
    | some _ => [⟨path ++ ".aggregations", "Aggregations must be a dictionary"⟩]
  | some _ => [⟨path ++ ".group_by", "Group by must be a list of fields"⟩]

/-- `_validate_export_task`: required `file_path` (string); `format`, when
present, must be a string naming one of the four formats case-insensitively. -/
def validateExportTask (kvs : List (String × Json)) (path : String) : List VError :=
  match lookupJ kvs "file_path" with
  | none => [⟨path ++ ".file_path", "Export task must have 'file_path' field"⟩]
  | some fp =>
    (match fp with
     | .s _ => []
     | _ => [(⟨path ++ ".file_path", "File path must be a string"⟩ : VError)])
    ++ (match lookupJ kvs "format" with
        | none => []
        | some (.s f) =>
          if pyLower f == "csv" || pyLower f == "json"
              || pyLower f == "excel" || pyLower f == "parquet" then []
          else [(⟨path ++ ".format", "Format must be one of: csv, json, excel, parquet"⟩ : VError)]
        | some _ => [(⟨path ++ ".format", "Format must be a string"⟩ : VError)])

/-- `_validate_task`: a non-dict task, a missing `task` key, or a non-string
kind each report exactly one error and return; an unknown kind reports one
error; kind-specific checks run only for the six recognised kinds. -/
def validateTask (task : Json) (path : String) : List VError :=
  match task with
  | .obj kvs =>
    match lookupJ kvs "task" with
    | none => [⟨path ++ ".task", "Task must have a 'task' field"⟩]
    | some (.s kind) =>
      (if validTaskTypes.contains kind then []
       else [(⟨path ++ ".task",
         "Unknown task type: " ++ kind ++ ". Valid types: " ++ validTypesRepr⟩ : VError)])
      ++ (if kind == "filter" then validateFilterTask kvs path
          else if kind == "sort" then validateSortTask kvs path
          else if kind == "transform" then validateTransformTask kvs path
          else if kind == "model_call" then validateModelCallTask kvs path
          else if kind == "aggregate" then validateAggregateTask kvs path
          else if kind == "export" then validateExportTask kvs path
          else [])
    | some _ => [⟨path ++ ".task", "Task type must be a string"⟩]
  | _ => [⟨path, "Task must be a dictionary"⟩]

/-- `validate_program`: missing `pipeline` aborts with the single `root`
error, a non-list `pipeline` aborts with the single `pipeline` error,
otherwise every task is validated independently and the errors accumulate
in task order. -/
def validate_program (program : List (String × Json)) : List VError :=
  match lookupJ program "pipeline" with
  | none => [⟨"root", "Program must contain a 'pipeline' field"⟩]
  | some (.arr tasks) =>
    (tasks.enum).flatMap
      (fun it => validateTask it.2 ("pipeline[" ++ toString it.1 ++ "]"))
  | some _ => [⟨"pipeline", "Pipeline must be a list of tasks"⟩]

/-! ## Pipeline executor (`src/aion/core/interpreter.py`) -/

/-- One entry of the `execution_plan` audit trail. -/
structure StepRecord where
  task_index : Nat
  task_type : String
  task_config : Json
  success : Bool
  error : Option String
deriving Repr

/-- A default record for safe positional access in theorem statements. -/
def StepRecord.dflt : StepRecord := ⟨0, "", Json.null, false, none⟩

/-- The `ExecutionResult` dataclass. -/
structure ExecutionResult where
  data : Option Table
  logs : List String
  errors : List String
  execution_plan : List StepRecord
deriving Repr

/-- `task["task"]` as read by the executor loop (validation has already
guaranteed a dict task with a string kind whenever the loop runs; the
fallback is unreachable on those paths). -/
def kindOf (task : Json) : String :=
  match task.lookup "task" with
  | some (.s s) => s
  | _ => ""

/-- The default registry contents installed by `_register_default_tasks`
(`interpreter.py` lines 33-45): `registry.get_handler` for the executing
interpreter. -/
def getHandler (kind : String) : Option (Table → Json → Except String Table) :=
  if kind == "filter" then some filter_task
  else if kind == "sort" then some sort_task
  else if kind == "transform" then some transform_task
  else if kind == "model_call" then some model_call_task
  else if kind == "aggregate" then some aggregate_task
  else if kind == "export" then some export_task
  else none

/-- Accumulated output of the executor loop from one step onward. -/
structure LoopOut where
  data : Table
  logs : List String
  errors : List String
  plan : List StepRecord

/-- The step log line `"Executing task i+1/N: kind"`. -/
def stepLog (n i : Nat) (kind : String) : String :=
  "Executing task " ++ toString (i + 1) ++ "/" ++ toString n ++ ": " ++ kind

/-- Loop output of the missing-handler break (`interpreter.py` lines 87-91):
one error, no step record, the table unchanged. -/
def noHandlerOut (n i : Nat) (d : Table) (kind : String) : LoopOut :=
  ⟨d, [stepLog n i kind,
       "ERROR: " ++ ("No handler registered for task type: " ++ kind)],
   ["No handler registered for task type: " ++ kind], []⟩

/-- Loop output of a step whose handler raised (`interpreter.py` lines
107-119): one error, one failing step record, then the break. -/
def failOut (n i : Nat) (d : Table) (task : Json) (kind e : String) : LoopOut :=
  ⟨d, [stepLog n i kind, "ERROR: " ++ ("Task " ++ kind ++ " failed: " ++ e)],
   ["Task " ++ kind ++ " failed: " ++ e],
   [⟨i, kind, task, false, some e⟩]⟩

/-- Loop output of a successful step (`interpreter.py` lines 94-105)
prepended to the remaining loop output. -/
def okOut (i : Nat) (n : Nat) (task : Json) (kind : String) (out : LoopOut) : LoopOut :=
  ⟨out.data,
   stepLog n i kind :: ("Task " ++ kind ++ " completed successfully") :: out.logs,
   out.errors,
   ⟨i, kind, task, true, none⟩ :: out.plan⟩

/-- The pipeline loop of `execute` (`interpreter.py` lines 80-119): per step
a log line, handler lookup (missing handler appends an error and breaks with
no step record), handler invocation (success records and continues, a raised
exception records a failing step and breaks). -/
def execLoop (n : Nat) : Nat → Table → List Json → LoopOut
  | _, data, [] => ⟨data, [], [], []⟩
  | i, data, task :: rest =>
    match getHandler (kindOf task) with
    | none => noHandlerOut n i data (kindOf task)
    | some h =>
      match h data task with
      | .ok newData => okOut i n task (kindOf task) (execLoop n (i + 1) newData rest)
      | .error e => failOut n i data task (kindOf task) e

/-- `program["pipeline"]` as read by `execute` after validation passed. -/
def pipelineTasks (program : List (String × Json)) : List Json :=
  match lookupJ program "pipeline" with
  | some (.arr ts) => ts
  | _ => []

/-- `AIONInterpreter.execute`: validation gate (any validation error rejects
the program with no step run), default empty input table, then the pipeline
loop. -/
def execute (program : List (String × Json)) (input : Option Table) : ExecutionResult :=
  let ve := validate_program program
  match ve with
  | [] =>
    let data := input.getD Table.emptyTable
    let tasks := pipelineTasks program
    let out := execLoop tasks.length 0 data tasks
    ⟨some out.data, "Program validation passed" :: out.logs, out.errors, out.plan⟩
  | _ => ⟨none, [], ve.map (fun e => e.path ++ ": " ++ e.message), []⟩

/-! ## Explainer (`src/aion/core/interpreter.py` lines 128-170) -/

/-- Python `len(x)` for the values a pipeline can hold (`None` on values
whose `len` raises). -/
def pyLen : Json → Option Nat
  | .s v => some v.data.length
  | .arr xs => some xs.length
  | .obj kvs => some kvs.length
  | _ => none

/-- Python iteration over a pipeline value: list elements, string
characters, dict keys; `None` on non-iterables. -/
def pyIter : Json → Option (List Json)
  | .s v => some (v.data.map (fun c => Json.s ⟨[c]⟩))
  | .arr xs => some xs
  | .obj kvs => some (kvs.map (fun kv => Json.s kv.1))
  | _ => none

/-- Python `repr` of a list of dict keys, as rendered by
`list(mapping.keys())` in the transform detail line. -/
def reprKeyList (keys : List String) : String :=
  "[" ++ String.intercalate ", " (keys.map (fun k => "'" ++ k ++ "'")) ++ "]"

/-- Best-effort field rendering of the explainer: the field's `str` form, or
the literal `"unknown"` default. -/
def fieldOrUnknown (kvs : List (String × Json)) (k : String) : String :=
  match lookupJ kvs k with
  | some j => j.pyStr
  | none => "unknown"

/-- The kind-specific detail line of one task block of `explain` (lines
147-166).  `none` models a raised exception: `.get` on a non-dict kind field
or slicing an unsliceable prompt. -/
def taskDetail (kind : String) (kvs : List (String × Json)) : Option String :=
  if kind == "filter" then
    match lookupJ kvs "condition" with
    | none => some ("   - Filters data where unknown unknown unknown\n")
    | some (.obj c) =>
      some ("   - Filters data where " ++ fieldOrUnknown c "field" ++ " "
        ++ fieldOrUnknown c "operator" ++ " " ++ fieldOrUnknown c "value" ++ "\n")
    | some _ => none
  else if kind == "sort" then
    match lookupJ kvs "operation" with
    | none => some ("   - Sorts data by unknown in ascending order\n")
    | some (.obj op) =>
      some ("   - Sorts data by " ++ fieldOrUnknown op "field" ++ " in "
        ++ (match lookupJ op "order" with
            | some j => j.pyStr
            | none => "asc") ++ "ending order\n")
    | some _ => none
  else if kind == "transform" then
    match lookupJ kvs "mapping" with
    | none => some ("   - Transforms fields: []\n")
    | some (.obj m) =>
      some ("   - Transforms fields: " ++ reprKeyList (m.map Prod.fst) ++ "\n")
    | some _ => none
  else if kind == "model_call" then
    (match lookupJ kvs "prompt" with
      | none => some "unknown"
      | some (.s p) => some (pyTake p 50)
      | some (.arr xs) => some (Json.pyStr (.arr (xs.take 50)))
      | some _ => none).map
      (fun p => "   - Calls AI model with prompt: " ++ p ++ "...\n")
  else
    some ""

/-- One task block of `explain` (lines 143-168).  `none` models a raised
exception: subscripting a non-dict task, a missing `task` key, `.upper()` on
a non-string kind, or a raise inside the detail line. -/
def explainTask (i : Nat) (task : Json) : Option String :=
  match task with
  | .obj kvs =>
    match lookupJ kvs "task" with
    | some (.s kind) =>
      (taskDetail kind kvs).map
        (fun d => toString (i + 1) ++ ". **" ++ pyUpper kind ++ "** task\n" ++ d ++ "\n")
    | some _ => none
    | none => none
  | _ => none

/-- The explainer loop over the pipeline items, with the running index. -/
def explainAll : Nat → List Json → Option String
  | _, [] => some ""
  | i, t :: ts =>
    match explainTask i t with
    | none => none
    | some s =>
      match explainAll (i + 1) ts with
      | none => none
      | some rest => some (s ++ rest)

/-- `AIONInterpreter.explain`: the fixed string on a missing `pipeline`,
otherwise the header plus one block per task; `none` models a raised
exception. -/
def explain (program : List (String × Json)) : Option String :=
  match lookupJ program "pipeline" with
  | none => some "Invalid program: missing pipeline"
  | some pipeline =>
    match pyLen pipeline, pyIter pipeline with
    | some n, some items =>
      (explainAll 0 items).map
        (fun body => "This AION program contains " ++ toString n ++ " tasks:\n\n" ++ body)
    | _, _ => none

/-! ## Claim-specific concrete inputs -/

/-- C1 counterexample input: renaming a into b queues a for removal, while a
second entry writes a fresh column named a (from c). -/

def c1CexData : Table := ⟨1, [("a", [Json.i 1]), ("c", [Json.i 2])]⟩

/-- C1 counterexample task: mapping with entries b from a, a from c. -/

def c1CexTask : Json :=
  Json.obj [("mapping", Json.obj [("b", Json.s "a"), ("a", Json.s "c")])]

/-- C1 witness data. -/

def c1wData : Table := ⟨1, [("a", [Json.i 7]), ("c", [Json.i 8])]⟩

/-- C1 witness task. -/

def c1wTask : Json :=
  Json.obj [("mapping", Json.obj [("b", Json.s "a"), ("a", Json.s "c")])]

/-- C1 witness result table. -/

def c1wRes : Table := ⟨1, [("b", [Json.i 7])]⟩

/-- First C6 task: transform mapping b from a. -/

def c6Task1 : Json := Json.obj [("mapping", Json.obj [("b", Json.s "a")])]

/-- Second C6 task: transform mapping c from b. -/

def c6Task2 : Json := Json.obj [("mapping", Json.obj [("c", Json.s "b")])]

/-- Result of the first C6 task on a non-empty table containing `a`. -/

def c6Step1 (t : Table) : Table := (t.setCol "b" (t.getColD "a")).dropCol "a"

/-- Result of the second C6 task applied after the first. -/

def c6Step2 (t : Table) : Table :=
  ((c6Step1 t).setCol "c" ((c6Step1 t).getColD "b")).dropCol "b"

/-- C6 witness input table. -/

def c6wData : Table := ⟨1, [("a", [Json.i 7])]⟩

/-- The single-concat transform task of C2. -/

def c2Task (nf : String) (items : List Json) : Json :=
  Json.obj [("mapping", Json.obj [(nf, Json.obj [("concat", Json.arr items)])])]

/-- C2 witness table: the row of the spec example. -/

def c2wData : Table := ⟨1, [("name", [Json.s "Alice"]), ("age", [Json.i 25])]⟩

/-- C2 witness concat items. -/

def c2wItems : List Json :=
  [Json.s "name", Json.s " (", Json.s "age", Json.s " years old)"]

/-- C10 witness table. -/

def c10wData : Table := ⟨1, [("x", [Json.i 3])]⟩

/-- C10 witness result (spelled out; proved equal to the input by the claim
theorem). -/

def c10wRes : Table := ⟨1, [("x", [Json.i 3])]⟩

/-- C9 aggregate task with empty `group_by`. -/

def c9Task1 (aggs : List (String × Json)) : Json :=
  Json.obj [("task", Json.s "aggregate"), ("group_by", Json.arr []),
            ("aggregations", Json.obj aggs)]

/-- C9 aggregate task with empty `aggregations`. -/

def c9Task2 (g : Json) (gbs : List Json) : Json :=
  Json.obj [("task", Json.s "aggregate"), ("group_by", Json.arr (g :: gbs)),
            ("aggregations", Json.obj [])]

/-- C8 filter task with a fully populated condition. -/

def c8Task (field op : String) (value : Json) : Json :=
  Json.obj [("condition", Json.obj
    [("field", Json.s field), ("operator", Json.s op), ("value", value)])]

/-- C8 witness table. -/

def c8wData : Table := ⟨1, [("x", [Json.i 1])]⟩

/-- Shape test for a list-valued `Json`. -/

def Json.isArr : Json → Bool
  | .arr _ => true
  | _ => false

/-- C3 witness program: a succeeding filter step followed by a filter on a
missing field, which fails. -/

def c3wProg : List (String × Json) :=
  [("pipeline", Json.arr
    [Json.obj [("task", Json.s "filter"), ("condition", Json.obj
      [("field", Json.s "x"), ("operator", Json.s "=="), ("value", Json.i 1)])],
     Json.obj [("task", Json.s "filter"), ("condition", Json.obj
      [("field", Json.s "y"), ("operator", Json.s "=="), ("value", Json.i 1)])]])]

/-- A kind-specific object field is absent or an object (so the explainer's
`.get` calls on it cannot raise). -/

def kindFieldOk (kvs : List (String × Json)) (k : String) : Bool :=
  match lookupJ kvs k with
  | none => true
  | some (.obj _) => true
  | some _ => false

/-- The `prompt` field is absent or sliceable (so `prompt[:50]` cannot
raise). -/

def promptOk (kvs : List (String × Json)) : Bool :=
  match lookupJ kvs "prompt" with
  | none => true
  | some (.s _) => true
  | some (.arr _) => true
  | some _ => false

/-- A task the explainer can render without raising: an object with a
string `task` kind whose kind-specific fields, when present, have the
shapes the explainer dereferences. -/

def taskExplainSafe : Json → Bool
  | .obj kvs =>
    match lookupJ kvs "task" with
    | some (.s kind) =>
      (kind != "filter" || kindFieldOk kvs "condition")
        && ((kind != "sort" || kindFieldOk kvs "operation")
        && ((kind != "transform" || kindFieldOk kvs "mapping")
        && (kind != "model_call" || promptOk kvs)))
    | _ => false
  | _ => false

/-! ## Column algebra of `Table` -/

theorem execLoop_cons_none (n i : Nat) (d : Table) (task : Json)
    (rest : List Json) (hg : getHandler (kindOf task) = none) :
    execLoop n i d (task :: rest) = noHandlerOut n i d (kindOf task) := by
  simp only [execLoop]
  rw [hg]

theorem execLoop_cons_ok (n i : Nat) (d nd : Table) (task : Json)
    (rest : List Json) (h : Table → Json → Except String Table)
    (hg : getHandler (kindOf task) = some h) (hr : h d task = .ok nd) :
    execLoop n i d (task :: rest)
      = okOut i n task (kindOf task) (execLoop n (i + 1) nd rest) := by
  simp only [execLoop]
  rw [hg]
  show (match h d task with
    | Except.ok newData => okOut i n task (kindOf task) (execLoop n (i + 1) newData rest)
    | Except.error e => failOut n i d task (kindOf task) e) = _
  rw [hr]

theorem execLoop_cons_error (n i : Nat) (d : Table) (task : Json)
    (rest : List Json) (h : Table → Json → Except String Table) (e : String)
    (hg : getHandler (kindOf task) = some h) (hr : h d task = .error e) :
    execLoop n i d (task :: rest) = failOut n i d task (kindOf task) e := by
  simp only [execLoop]
  rw [hg]
  show (match h d task with
    | Except.ok newData => okOut i n task (kindOf task) (execLoop n (i + 1) newData rest)
    | Except.error e => failOut n i d task (kindOf task) e) = _
  rw [hr]

theorem hasCol_setCol (t : Table) (n m : String) (v : List Json) :
    (t.setCol n v).hasCol m = (t.hasCol m || m == n) := by
  rw [Bool.eq_iff_iff]
  simp only [Table.setCol, Table.hasCol, Bool.or_eq_true, beq_iff_eq]
  split
  · next h =>
    simp only [List.any_map, List.any_eq_true, Function.comp, beq_iff_eq] at h ⊢
    constructor
    · rintro ⟨c, hc, he⟩
      by_cases hcn : c.1 = n
      · simp [hcn] at he
        right
        exact he.symm
      · simp [hcn] at he
        exact Or.inl ⟨c, hc, he⟩
    · rintro (⟨c, hc, he⟩ | he)
      · by_cases hcn : c.1 = n
        · exact ⟨c, hc, by rw [if_pos hcn]; exact hcn.symm.trans he⟩
        · exact ⟨c, hc, by rw [if_neg hcn]; exact he⟩
      · obtain ⟨c, hc, he2⟩ := h
        exact ⟨c, hc, by rw [if_pos he2]; exact he.symm⟩
  · next h =>
    simp only [List.any_append, List.any_cons, List.any_nil, Bool.or_eq_true,
      List.any_eq_true, beq_iff_eq] at h ⊢
    constructor
    · rintro (⟨c, hc, he⟩ | he)
      · exact Or.inl ⟨c, hc, he⟩
      · simp at he
        exact Or.inr he.symm
    · rintro (⟨c, hc, he⟩ | he)
      · exact Or.inl ⟨c, hc, he⟩
      · exact Or.inr (by simp [he])

theorem hasCol_dropCol (t : Table) (n m : String) :
    (t.dropCol n).hasCol m = (t.hasCol m && m != n) := by
  rw [Bool.eq_iff_iff]
  simp only [Table.dropCol, Table.hasCol, Bool.and_eq_true, List.any_eq_true,
    List.mem_filter, beq_iff_eq, bne_iff_ne, ne_eq]
  constructor
  · rintro ⟨c, ⟨hc, hcn⟩, he⟩
    exact ⟨⟨c, hc, he⟩, by rw [← he]; exact hcn⟩
  · rintro ⟨⟨c, hc, he⟩, hmn⟩
    exact ⟨c, ⟨hc, by rw [he]; exact hmn⟩, he⟩

theorem findSet_self (n : String) (v : List Json) (l : List (String × List Json))
    (h : l.any (fun c => c.1 == n) = true) :
    (l.map (fun c => if c.1 == n then (n, v) else c)).find? (fun c => c.1 == n)
      = some (n, v) := by
  induction l with
  | nil => simp at h
  | cons c cs ih =>
    cases hc : c.1 == n with
    | true =>
      rw [List.map_cons, if_pos hc]
      exact List.find?_cons_of_pos _ (by simp)
    | false =>
      rw [List.map_cons, if_neg (by simp [hc])]
      rw [List.find?_cons_of_neg _ (by simp [hc])]
      apply ih
      simpa [List.any_cons, hc] using h

theorem findSet_none (n : String) (v : List Json) (l : List (String × List Json))
    (h : l.any (fun c => c.1 == n) = false) :
    (l ++ [(n, v)]).find? (fun c => c.1 == n) = some (n, v) := by
  induction l with
  | nil => simp [List.find?_cons_of_pos]
  | cons c cs ih =>
    simp only [List.any_cons, Bool.or_eq_false_iff] at h
    rw [List.cons_append, List.find?_cons_of_neg _ (by simp [h.1])]
    exact ih h.2

theorem findSet_other (n m : String) (v : List Json) (l : List (String × List Json))
    (hmn : m ≠ n) :
    (l.map (fun c => if c.1 == n then (n, v) else c)).find? (fun c => c.1 == m)
      = l.find? (fun c => c.1 == m) := by
  induction l with
  | nil => rfl
  | cons c cs ih =>
    cases hc : c.1 == n with
    | true =>
      have hcm : (c.1 == m) = false := by
        cases hcm2 : c.1 == m
        · rfl
        · exact absurd ((eq_of_beq hc).symm.trans (eq_of_beq hcm2)).symm hmn
      have hnm : (n == m) = false := by
        cases hnm2 : n == m
        · rfl
        · exact absurd (eq_of_beq hnm2).symm hmn
      rw [List.map_cons, if_pos hc]
      rw [List.find?_cons_of_neg _ (by simp [hnm]), List.find?_cons_of_neg _ (by simp [hcm])]
      exact ih
    | false =>
      rw [List.map_cons, if_neg (by simp [hc])]
      cases hcm : c.1 == m with
      | true =>
        rw [List.find?_cons_of_pos _ (by simp [hcm]), List.find?_cons_of_pos _ (by simp [hcm])]
      | false =>
        rw [List.find?_cons_of_neg _ (by simp [hcm]), List.find?_cons_of_neg _ (by simp [hcm])]
        exact ih

theorem findDrop_other (n m : String) (l : List (String × List Json))
    (hmn : m ≠ n) :
    (l.filter (fun c => c.1 != n)).find? (fun c => c.1 == m)
      = l.find? (fun c => c.1 == m) := by
  induction l with
  | nil => rfl
  | cons c cs ih =>
    cases hc : c.1 != n with
    | true =>
      rw [List.filter_cons_of_pos (by simp [hc])]
      cases hcm : c.1 == m with
      | true =>
        rw [List.find?_cons_of_pos _ (by simp [hcm]), List.find?_cons_of_pos _ (by simp [hcm])]
      | false =>
        rw [List.find?_cons_of_neg _ (by simp [hcm]), List.find?_cons_of_neg _ (by simp [hcm])]
        exact ih
    | false =>
      have hcn : c.1 = n := by simpa using hc
      have hcm : (c.1 == m) = false := by
        cases hcm2 : c.1 == m
        · rfl
        · exact absurd (hcn.symm.trans (eq_of_beq hcm2)).symm hmn
      rw [List.filter_cons_of_neg (by simp [hc])]
      rw [List.find?_cons_of_neg _ (by simp [hcm])]
      exact ih

theorem getColD_setCol_self (t : Table) (n : String) (v : List Json) :
    (t.setCol n v).getColD n = v := by
  unfold Table.setCol Table.getColD
  split
  · next h =>
    show (Option.map Prod.snd
      ((t.cols.map fun c => if c.1 == n then (n, v) else c).find? fun c => c.1 == n)).getD [] = v
    rw [findSet_self n v t.cols h]
    rfl
  · next h =>
    show (Option.map Prod.snd ((t.cols ++ [(n, v)]).find? fun c => c.1 == n)).getD [] = v
    have h2 : (t.cols.any fun c => c.1 == n) = false := by
      cases hh : t.cols.any fun c => c.1 == n
      · rfl
      · exact absurd hh h
    rw [findSet_none n v t.cols h2]
    rfl

theorem getColD_setCol_other (t : Table) (n m : String) (v : List Json)
    (hmn : m ≠ n) :
    (t.setCol n v).getColD m = t.getColD m := by
  unfold Table.setCol Table.getColD
  split
  · show (Option.map Prod.snd
      ((t.cols.map fun c => if c.1 == n then (n, v) else c).find? fun c => c.1 == m)).getD []
      = (Option.map Prod.snd (t.cols.find? fun c => c.1 == m)).getD []
    rw [findSet_other n m v t.cols hmn]
  · show (Option.map Prod.snd ((t.cols ++ [(n, v)]).find? fun c => c.1 == m)).getD []
      = (Option.map Prod.snd (t.cols.find? fun c => c.1 == m)).getD []
    have hnm : (n == m) = false := by
      cases hnm2 : n == m
      · rfl
      · exact absurd (eq_of_beq hnm2).symm hmn
    rw [List.find?_append]
    cases hf : t.cols.find? (fun c => c.1 == m) with
    | some c => simp [hf]
    | none =>
      rw [List.find?_cons_of_neg _ (by simp [hnm])]
      simp

theorem getColD_dropCol_other (t : Table) (n m : String) (hmn : m ≠ n) :
    (t.dropCol n).getColD m = t.getColD m := by
  unfold Table.dropCol Table.getColD
  show (Option.map Prod.snd
    ((t.cols.filter fun c => c.1 != n).find? fun c => c.1 == m)).getD []
    = (Option.map Prod.snd (t.cols.find? fun c => c.1 == m)).getD []
  rw [findDrop_other n m t.cols hmn]

theorem hasCol_nonempty_cols (t : Table) (m : String) (h : t.hasCol m = true) :
    t.cols.isEmpty = false := by
  unfold Table.hasCol at h
  cases hcl : t.cols with
  | nil =>
    rw [hcl] at h
    simp at h
  | cons c cs => rfl

/-! ## The removal queue of the transform loop -/

theorem mem_insertName_self (s : String) (l : List String) : s ∈ insertName s l := by
  unfold insertName
  split
  · assumption
  · simp

theorem mem_insertName_of_mem (s x : String) (l : List String) (h : x ∈ l) :
    x ∈ insertName s l := by
  unfold insertName
  split
  · exact h
  · exact List.mem_append_left _ h

theorem applyEntry_sub (data result : Table) (toRemove : List String)
    (nf : String) (src : Json) (r2 : Table) (t2 : List String)
    (h : applyEntry data result toRemove nf src = .ok (r2, t2)) :
    ∀ x ∈ toRemove, x ∈ t2 := by
  intro x hx
  cases src with
  | s s0 =>
    simp only [applyEntry] at h
    split at h
    · injection h with h2
      injection h2 with _ h3
      rw [← h3]
      exact mem_insertName_of_mem s0 x toRemove hx
    · exact absurd h (by simp)
  | obj kvs =>
    simp only [applyEntry] at h
    split at h
    · split at h
      · split at h
        · exact absurd h (by simp)
        · injection h with h2
          injection h2 with _ h3
          rw [← h3]
          exact hx
      · exact absurd h (by simp)
    · exact absurd h (by simp)
  | arr xs =>
    simp only [applyEntry] at h
    split at h
    · injection h with h2
      injection h2 with _ h3
      rw [← h3]
      exact hx
    · exact absurd h (by simp)
  | i v =>
    simp only [applyEntry] at h
    injection h with h2
    injection h2 with _ h3
    rw [← h3]
    exact hx
  | b v =>
    simp only [applyEntry] at h
    injection h with h2
    injection h2 with _ h3
    rw [← h3]
    exact hx
  | null =>
    simp only [applyEntry] at h
    injection h with h2
    injection h2 with _ h3
    rw [← h3]
    exact hx

theorem transformEntries_sub (data : Table) (es : List (String × Json)) :
    ∀ (r : Table) (t : List String) (r1 : Table) (t1 : List String),
    transformEntries data es r t = .ok (r1, t1) → ∀ x ∈ t, x ∈ t1 := by
  induction es with
  | nil =>
    intro r t r1 t1 h x hx
    simp only [transformEntries] at h
    injection h with h2
    injection h2 with _ h3
    rw [← h3]
    exact hx
  | cons e rest ih =>
    intro r t r1 t1 h x hx
    obtain ⟨nf, src⟩ := e
    simp only [transformEntries] at h
    cases happ : applyEntry data r t nf src with
    | error e2 =>
      rw [happ] at h
      exact absurd h (by simp)
    | ok p =>
      obtain ⟨r2, t2⟩ := p
      rw [happ] at h
      exact ih r2 t2 r1 t1 h x (applyEntry_sub data r t nf src r2 t2 happ x hx)

theorem transformEntries_queued (data : Table) (es : List (String × Json)) :
    ∀ (r : Table) (t : List String) (r1 : Table) (t1 : List String)
      (nf s : String),
    transformEntries data es r t = .ok (r1, t1) → (nf, Json.s s) ∈ es →
    data.hasCol s = true → s ∈ t1 := by
  induction es with
  | nil =>
    intro r t r1 t1 nf s _ hmem _
    exact absurd hmem (by simp)
  | cons e rest ih =>
    intro r t r1 t1 nf s h hmem hcol
    obtain ⟨nf0, src0⟩ := e
    simp only [transformEntries] at h
    rcases List.mem_cons.mp hmem with hhead | htail
    · have hsrc : src0 = Json.s s := congrArg Prod.snd hhead.symm
      subst hsrc
      simp only [applyEntry, hcol, if_true] at h
      exact transformEntries_sub data rest _ _ r1 t1 h s
        (mem_insertName_self s t)
    · cases happ : applyEntry data r t nf0 src0 with
      | error e2 =>
        rw [happ] at h
        exact absurd h (by simp)
      | ok p =>
        obtain ⟨r2, t2⟩ := p
        rw [happ] at h
        exact ih r2 t2 r1 t1 nf s h htail hcol

theorem hasCol_removeFields_absent (rem : List String) :
    ∀ (t : Table) (s : String), t.hasCol s = false →
    (removeFields t rem).hasCol s = false := by
  induction rem with
  | nil =>
    intro t s h
    exact h
  | cons f fs ih =>
    intro t s h
    show (removeFields (if t.hasCol f then t.dropCol f else t) fs).hasCol s = false
    apply ih
    split
    · rw [hasCol_dropCol, h]
      rfl
    · exact h

theorem hasCol_removeFields_mem (rem : List String) :
    ∀ (t : Table) (s : String), s ∈ rem →
    (removeFields t rem).hasCol s = false := by
  induction rem with
  | nil =>
    intro t s h
    exact absurd h (by simp)
  | cons f fs ih =>
    intro t s h
    rcases List.mem_cons.mp h with hh | ht
    · subst hh
      show (removeFields (if t.hasCol s then t.dropCol s else t) fs).hasCol s = false
      apply hasCol_removeFields_absent
      split
      · next hc =>
        rw [hasCol_dropCol]
        simp
      · next hc =>
        cases hcc : t.hasCol s
        · rfl
        · exact absurd hcc hc
    · exact ih _ s ht

/-- C1: the claim predicts that the freshly written column `a` (produced as
a `new_field` from `c`) survives the removal queue; the code drops it
unconditionally, leaving only column `b`. -/

theorem claimC1_counterexample :
    transform_task c1CexData c1CexTask = .ok ⟨1, [("b", [Json.i 1])]⟩
    ∧ Table.hasCol ⟨1, [("b", [Json.i 1])]⟩ "a" = false :=
  ⟨rfl, rfl⟩

/-- C1 (amended): in a transform task on a non-empty table, after all
mapping entries have been applied, every source column queued for removal by
a Rename entry is dropped from the result unconditionally - even when that
same column name was also produced as a `new_field` by some entry of the
same task (for every mapping on which the task succeeds). -/

theorem claimC1_theorem (data : Table) (task : Json)
    (mapping : List (String × Json)) (res : Table) (nf s : String)
    (hne : data.isEmpty = false)
    (hmap : task.lookup "mapping" = some (.obj mapping))
    (hok : transform_task data task = .ok res)
    (hmem : (nf, Json.s s) ∈ mapping)
    (hcol : data.hasCol s = true) :
    res.hasCol s = false := by
  unfold transform_task at hok
  rw [hne] at hok
  rw [if_neg Bool.false_ne_true] at hok
  rw [hmap] at hok
  have hok2 : (match transformEntries data mapping data [] with
    | Except.ok (result, toRemove) => Except.ok (removeFields result toRemove)
    | Except.error e => (Except.error e : Except String Table)) = Except.ok res := hok
  cases hte : transformEntries data mapping data [] with
  | error e =>
    rw [hte] at hok2
    exact absurd hok2 (by simp)
  | ok p =>
    obtain ⟨r1, t1⟩ := p
    rw [hte] at hok2
    injection hok2 with h2
    rw [← h2]
    exact hasCol_removeFields_mem t1 r1 s
      (transformEntries_queued data mapping data [] r1 t1 nf s hte hmem hcol)

/-- C1 witness: the amended theorem applied at a concrete table and mapping. -/

theorem claimC1_witness :
    transform_task c1wData c1wTask = .ok c1wRes ∧ c1wRes.hasCol "a" = false :=
  ⟨rfl, claimC1_theorem c1wData c1wTask [("b", Json.s "a"), ("a", Json.s "c")]
    c1wRes "b" "a" rfl rfl rfl (List.Mem.head _) rfl⟩

theorem nrows_setCol (t : Table) (n : String) (v : List Json) :
    (t.setCol n v).nrows = t.nrows := by
  unfold Table.setCol
  split <;> rfl

theorem nrows_dropCol (t : Table) (n : String) :
    (t.dropCol n).nrows = t.nrows := rfl

/-- C6: on a zero-row table with column `a` (a real DataFrame: column `a`
present, no rows), both transform tasks return their input unchanged through
the empty-table early return, so the final table still contains `a` and
never gains `c`, contradicting the claim as stated for every table
containing `a`. -/

theorem claimC6_counterexample :
    transform_task ⟨0, [("a", [])]⟩ c6Task1 = .ok ⟨0, [("a", [])]⟩
    ∧ transform_task ⟨0, [("a", [])]⟩ c6Task2 = .ok ⟨0, [("a", [])]⟩
    ∧ Table.hasCol ⟨0, [("a", [])]⟩ "a" = true
    ∧ Table.hasCol ⟨0, [("a", [])]⟩ "c" = false :=
  ⟨rfl, rfl, rfl, rfl⟩

/-- C6 (amended): restricted to non-empty tables containing `a`.  The first
task succeeds, its result never re-introduces `a`; composing with the second
task succeeds and yields a table whose `c` column carries the original
values of `a` and which contains neither `a` nor `b`. -/

theorem claimC6_theorem (t : Table)
    (hne : t.isEmpty = false) (ha : t.hasCol "a" = true) :
    transform_task t c6Task1 = .ok (c6Step1 t)
    ∧ transform_task (c6Step1 t) c6Task2 = .ok (c6Step2 t)
    ∧ (c6Step1 t).hasCol "a" = false
    ∧ (c6Step2 t).getColD "c" = t.getColD "a"
    ∧ (c6Step2 t).hasCol "a" = false
    ∧ (c6Step2 t).hasCol "b" = false := by
  have ha1 : (c6Step1 t).hasCol "a" = false := by
    unfold c6Step1
    rw [hasCol_dropCol]
    simp
  have hb1 : (c6Step1 t).hasCol "b" = true := by
    unfold c6Step1
    rw [hasCol_dropCol, hasCol_setCol]
    simp
  have hne1 : (c6Step1 t).isEmpty = false := by
    have hrows : (c6Step1 t).nrows = t.nrows := by
      unfold c6Step1
      rw [nrows_dropCol, nrows_setCol]
    have hcols : (c6Step1 t).cols.isEmpty = false :=
      hasCol_nonempty_cols _ _ hb1
    simp only [Table.isEmpty] at hne ⊢
    rw [hrows, hcols]
    simp only [Bool.or_eq_false_iff] at hne
    simp [hne.1]
  have hvb : (c6Step1 t).getColD "b" = t.getColD "a" := by
    unfold c6Step1
    rw [getColD_dropCol_other _ _ _ (by decide)]
    exact getColD_setCol_self t "b" (t.getColD "a")
  have hstep1 : transform_task t c6Task1 = .ok (c6Step1 t) := by
    unfold transform_task
    rw [hne, if_neg Bool.false_ne_true]
    show (match transformEntries t [("b", Json.s "a")] t [] with
      | Except.ok (result, toRemove) => Except.ok (removeFields result toRemove)
      | Except.error e => (Except.error e : Except String Table)) = _
    simp only [transformEntries, applyEntry, ha, if_true]
    show Except.ok (removeFields (t.setCol "b" (t.getColD "a")) ["a"]) = _
    unfold removeFields
    simp only [List.foldl_cons, List.foldl_nil]
    rw [if_pos (by rw [hasCol_setCol, ha]; rfl)]
    rfl
  have hstep2 : transform_task (c6Step1 t) c6Task2 = .ok (c6Step2 t) := by
    unfold transform_task
    rw [hne1, if_neg Bool.false_ne_true]
    show (match transformEntries (c6Step1 t) [("c", Json.s "b")] (c6Step1 t) [] with
      | Except.ok (result, toRemove) => Except.ok (removeFields result toRemove)
      | Except.error e => (Except.error e : Except String Table)) = _
    simp only [transformEntries, applyEntry, hb1, if_true]
    show Except.ok (removeFields ((c6Step1 t).setCol "c" ((c6Step1 t).getColD "b")) ["b"]) = _
    unfold removeFields
    simp only [List.foldl_cons, List.foldl_nil]
    rw [if_pos (by rw [hasCol_setCol, hb1]; rfl)]
    rfl
  refine ⟨hstep1, hstep2, ha1, ?_, ?_, ?_⟩
  · unfold c6Step2
    rw [getColD_dropCol_other _ _ _ (by decide)]
    rw [getColD_setCol_self]
    exact hvb
  · unfold c6Step2
    rw [hasCol_dropCol, hasCol_setCol, ha1]
    rfl
  · unfold c6Step2
    rw [hasCol_dropCol]
    simp

/-- C6 witness: the amended theorem applied to a concrete one-row table. -/

theorem claimC6_witness :
    transform_task c6wData c6Task1 = .ok ⟨1, [("b", [Json.i 7])]⟩
    ∧ transform_task ⟨1, [("b", [Json.i 7])]⟩ c6Task2 = .ok ⟨1, [("c", [Json.i 7])]⟩
    ∧ Table.getColD ⟨1, [("c", [Json.i 7])]⟩ "c" = [Json.i 7]
    ∧ Table.hasCol ⟨1, [("c", [Json.i 7])]⟩ "a" = false
    ∧ Table.hasCol ⟨1, [("c", [Json.i 7])]⟩ "b" = false := by
  have h := claimC6_theorem c6wData rfl rfl
  exact ⟨h.1, h.2.1, h.2.2.2.1, h.2.2.2.2.1, h.2.2.2.2.2⟩

/-! ## Concat column shape (C2) -/

theorem strJoin_cons (s : String) (l : List String) :
    String.join (s :: l) = s ++ String.join l := by
  simp [String.join_eq]
  rfl

theorem strFoldl_join {α : Type} (g : α → String) (l : List α) :
    ∀ a : String, l.foldl (fun acc x => acc ++ g x) a = a ++ String.join (l.map g) := by
  induction l with
  | nil =>
    intro a
    simp [String.join, String.append_empty]
  | cons x xs ih =>
    intro a
    simp only [List.foldl_cons, List.map_cons]
    rw [ih, strJoin_cons, String.append_assoc]

theorem transform_concat_base (data : Table) (nf : String) (items : List Json)
    (hne : data.isEmpty = false) :
    transform_task data (c2Task nf items)
      = (match items.find? (concatBad data) with
         | some it => .error ("Field '" ++ badName it ++ "' not found in data")
         | none => .ok (data.setCol nf (buildConcat data items))) := by
  unfold transform_task
  rw [hne, if_neg Bool.false_ne_true]
  show (match transformEntries data [(nf, Json.obj [("concat", Json.arr items)])] data [] with
    | Except.ok (result, toRemove) => Except.ok (removeFields result toRemove)
    | Except.error e => (Except.error e : Except String Table)) = _
  simp only [transformEntries, applyEntry]
  show (match (match (match List.find? (concatBad data) items with
      | some it => (Except.error ("Field '" ++ badName it ++ "' not found in data")
          : Except String (Table × List String))
      | none => Except.ok (data.setCol nf (buildConcat data items), [])) with
    | Except.ok (r2, t2) => (Except.ok (r2, t2) : Except String (Table × List String))
    | Except.error e => Except.error e) with
    | Except.ok (result, toRemove) => Except.ok (removeFields result toRemove)
    | Except.error e => (Except.error e : Except String Table)) = _
  cases hf : items.find? (concatBad data) with
  | some it => rfl
  | none => rfl

/-- C2: on a non-empty table, a single-entry concat mapping fails with
`Field '<item>' not found in data` exactly when some string item neither
names a column nor passes the literal heuristic (`concatBad`); otherwise it
succeeds and writes the column whose row `r` is the in-order concatenation
of the per-item contributions: an existing column's cell rendered by `str`,
a literal string itself, the `str` form of a non-string. -/

theorem claimC2_theorem (data : Table) (nf : String) (items : List Json)
    (hne : data.isEmpty = false) :
    (∀ f, items.find? (concatBad data) = some (Json.s f) →
      transform_task data (c2Task nf items)
        = .error ("Field '" ++ f ++ "' not found in data"))
    ∧ (items.all (fun it => !concatBad data it) = true →
      transform_task data (c2Task nf items)
        = .ok (data.setCol nf ((List.range data.nrows).map
            (fun r => Json.s (String.join (items.map (concatContribution data r))))))) := by
  constructor
  · intro f hfind
    rw [transform_concat_base data nf items hne, hfind]
    rfl
  · intro hall
    have hnone : items.find? (concatBad data) = none := by
      apply List.find?_eq_none.mpr
      intro x hx
      have h2 := List.all_eq_true.mp hall x hx
      simp only [Bool.not_eq_true'] at h2
      simp [h2]
    rw [transform_concat_base data nf items hne, hnone]
    show Except.ok (data.setCol nf (buildConcat data items)) = _
    have hcol : buildConcat data items
        = (List.range data.nrows).map
            (fun r => Json.s (String.join (items.map (concatContribution data r)))) := by
      unfold buildConcat
      apply List.map_congr_left
      intro r _
      rw [strFoldl_join, String.empty_append]
    rw [hcol]

/-- C2 witness: the theorem at the spec example, producing exactly
`Alice (25 years old)`. -/

theorem claimC2_witness :
    transform_task c2wData (c2Task "description" c2wItems)
      = .ok ⟨1, [("name", [Json.s "Alice"]), ("age", [Json.i 25]),
                 ("description", [Json.s "Alice (25 years old)"])]⟩ := by
  have h := (claimC2_theorem c2wData "description" c2wItems rfl).2 rfl
  exact h

/-- C10: `export_task` returns its input table unchanged on every
configuration on which it succeeds; the export itself is an external side
effect. -/

theorem claimC10_theorem (data : Table) (task : Json) (res : Table)
    (h : export_task data task = .ok res) : res = data := by
  unfold export_task at h
  repeat
    first
    | exact (Except.ok.inj h).symm
    | exact Except.noConfusion h
    | split at h

/-- C10 witness: a concrete successful export step. -/

theorem claimC10_witness :
    export_task c10wData (Json.obj [("file_path", Json.s "out/data.csv")]) = .ok c10wRes
    ∧ c10wRes = c10wData :=
  ⟨rfl, claimC10_theorem c10wData (Json.obj [("file_path", Json.s "out/data.csv")]) c10wRes rfl⟩

/-- C9: an aggregate task with an empty `group_by` list (respectively an
empty `aggregations` object) passes validation, yet `aggregate_task` raises
the corresponding message on every non-empty table, before any field
checks. -/

theorem claimC9_theorem (data : Table) (hne : data.isEmpty = false) :
    (∀ aggs : List (String × Json),
      validate_program [("pipeline", Json.arr [c9Task1 aggs])] = []
      ∧ aggregate_task data (c9Task1 aggs)
        = .error "Aggregate task must specify 'group_by' fields")
    ∧ (∀ (g : Json) (gbs : List Json),
      validate_program [("pipeline", Json.arr [c9Task2 g gbs])] = []
      ∧ aggregate_task data (c9Task2 g gbs)
        = .error "Aggregate task must specify 'aggregations'") := by
  constructor
  · intro aggs
    constructor
    · rfl
    · unfold aggregate_task
      rw [hne, if_neg Bool.false_ne_true]
      rfl
  · intro g gbs
    constructor
    · rfl
    · unfold aggregate_task
      rw [hne, if_neg Bool.false_ne_true]
      rfl

/-- C9 witness: the theorem at a concrete one-row table, a concrete
aggregation map and a concrete `group_by` field. -/

theorem claimC9_witness :
    (validate_program [("pipeline", Json.arr [c9Task1 [("x", Json.s "sum")]])] = []
      ∧ aggregate_task ⟨1, [("x", [Json.i 1])]⟩ (c9Task1 [("x", Json.s "sum")])
        = .error "Aggregate task must specify 'group_by' fields")
    ∧ (validate_program [("pipeline", Json.arr [c9Task2 (Json.s "x") []])] = []
      ∧ aggregate_task ⟨1, [("x", [Json.i 1])]⟩ (c9Task2 (Json.s "x") [])
        = .error "Aggregate task must specify 'aggregations'") :=
  ⟨(claimC9_theorem ⟨1, [("x", [Json.i 1])]⟩ rfl).1 [("x", Json.s "sum")],
   (claimC9_theorem ⟨1, [("x", [Json.i 1])]⟩ rfl).2 (Json.s "x") []⟩

theorem filter_task_base (data : Table) (field op : String) (value : Json)
    (hne : data.isEmpty = false) :
    filter_task data (c8Task field op value)
      = (if (!isSupportedOp (Json.s op)) = true
         then .error ("Unsupported operator: " ++ (Json.s op).pyStr)
         else if data.hasCol field then
           (match (List.range data.nrows).mapM
               (fun r => applyOp (Json.s op).pyStr ((data.getColD field).getD r Json.null) value) with
            | .ok mask => .ok (data.maskRows mask)
            | .error e => .error e)
         else .error ("Field '" ++ field ++ "' not found in data")) := by
  unfold filter_task
  rw [hne, if_neg Bool.false_ne_true]
  rfl

/-- C8: on a non-empty table with a complete condition, the operator check
precedes the field-existence check: an unsupported operator string fails
with `Unsupported operator` regardless of the field; a supported operator
with a missing field fails with `Field not found`; success is only possible
for operators of the exact eleven-element list. -/

theorem claimC8_theorem (data : Table) (field op : String) (value : Json)
    (hne : data.isEmpty = false) :
    (op ∉ filterOps →
      filter_task data (c8Task field op value)
        = .error ("Unsupported operator: " ++ op))
    ∧ (op ∈ filterOps → data.hasCol field = false →
      filter_task data (c8Task field op value)
        = .error ("Field '" ++ field ++ "' not found in data"))
    ∧ (∀ res, filter_task data (c8Task field op value) = .ok res → op ∈ filterOps)
    ∧ filterOps = ["==", "!=", ">", ">=", "<", "<=", "in", "not in",
                   "contains", "startswith", "endswith"] := by
  have hmemContains : ∀ h : op ∈ filterOps, filterOps.contains op = true := by
    intro h
    exact List.elem_iff.mpr h
  refine ⟨?_, ?_, ?_, rfl⟩
  · intro h
    have hcont : filterOps.contains op = false := by
      cases hc : filterOps.contains op
      · rfl
      · exact absurd (List.elem_iff.mp hc) h
    rw [filter_task_base data field op value hne]
    have hsup : isSupportedOp (Json.s op) = false := hcont
    rw [hsup]
    rfl
  · intro h hcol
    rw [filter_task_base data field op value hne]
    have hsup : isSupportedOp (Json.s op) = true := hmemContains h
    rw [hsup]
    show (if data.hasCol field = true then _ else _) = _
    rw [hcol]
    rfl
  · intro res hok
    cases hc : filterOps.contains op with
    | true => exact List.elem_iff.mp hc
    | false =>
      rw [filter_task_base data field op value hne] at hok
      have hsup : isSupportedOp (Json.s op) = false := hc
      rw [hsup] at hok
      exact absurd hok (by simp)

/-- C8 witness: the theorem instantiated twice on a one-row table: the
unsupported operator `%%` (with an existing field), and the supported
operator `>` on the missing field `y`. -/

theorem claimC8_witness :
    filter_task c8wData (c8Task "x" "%%" (Json.i 0))
      = .error "Unsupported operator: %%"
    ∧ filter_task c8wData (c8Task "y" ">" (Json.i 0))
      = .error "Field 'y' not found in data" :=
  ⟨(claimC8_theorem c8wData "x" "%%" (Json.i 0) rfl).1 (by decide),
   (claimC8_theorem c8wData "y" ">" (Json.i 0) rfl).2.1 (by decide) rfl⟩

/-- C7: on a program whose `pipeline` is the empty list, `execute` returns
the input table unchanged and no errors. -/

theorem claimC7_theorem (prog : List (String × Json)) (t : Table)
    (h : lookupJ prog "pipeline" = some (Json.arr [])) :
    (execute prog (some t)).data = some t
    ∧ (execute prog (some t)).errors = [] := by
  have hv : validate_program prog = [] := by
    unfold validate_program
    rw [h]
    rfl
  have hp : pipelineTasks prog = [] := by
    unfold pipelineTasks
    rw [h]
  unfold execute
  rw [hv, hp]
  exact ⟨rfl, rfl⟩

/-- C7 witness: a concrete empty pipeline over a one-row table. -/

theorem claimC7_witness :
    (execute [("pipeline", Json.arr [])] (some ⟨1, [("x", [Json.i 5])]⟩)).data
      = some ⟨1, [("x", [Json.i 5])]⟩
    ∧ (execute [("pipeline", Json.arr [])] (some ⟨1, [("x", [Json.i 5])]⟩)).errors = [] :=
  claimC7_theorem [("pipeline", Json.arr [])] ⟨1, [("x", [Json.i 5])]⟩ rfl

/-- C5: a missing `pipeline` yields exactly the single `root` error and a
non-list `pipeline` exactly the single `pipeline` error, each returning
immediately; a list `pipeline` is validated task by task, the errors of all
tasks accumulating in task order with no short-circuit across tasks. -/

theorem claimC5_theorem (program : List (String × Json)) :
    (lookupJ program "pipeline" = none →
      validate_program program
        = [⟨"root", "Program must contain a 'pipeline' field"⟩])
    ∧ (∀ p, lookupJ program "pipeline" = some p → p.isArr = false →
      validate_program program
        = [⟨"pipeline", "Pipeline must be a list of tasks"⟩])
    ∧ (∀ tasks, lookupJ program "pipeline" = some (Json.arr tasks) →
      validate_program program
        = tasks.enum.flatMap
            (fun it => validateTask it.2 ("pipeline[" ++ toString it.1 ++ "]"))) := by
  refine ⟨?_, ?_, ?_⟩
  · intro h
    unfold validate_program
    rw [h]
  · intro p h hna
    unfold validate_program
    rw [h]
    cases p with
    | arr xs => exact absurd hna (by simp [Json.isArr])
    | s v => rfl
    | i v => rfl
    | b v => rfl
    | null => rfl
    | obj kvs => rfl
  · intro tasks h
    unfold validate_program
    rw [h]

/-- C5 witness: a pipeline with two independently malformed tasks reports
both errors, in task order. -/

theorem claimC5_witness :
    validate_program [("pipeline", Json.arr [Json.obj [], Json.i 5])]
      = [⟨"pipeline[0].task", "Task must have a 'task' field"⟩,
         ⟨"pipeline[1]", "Task must be a dictionary"⟩] := by
  have h := (claimC5_theorem [("pipeline", Json.arr [Json.obj [], Json.i 5])]).2.2
    [Json.obj [], Json.i 5] rfl
  exact h

/-! ## Executor loop invariants (C3) -/

theorem execLoop_failCount (n : Nat) (ts : List Json) :
    ∀ (i : Nat) (d : Table),
    ((execLoop n i d ts).plan.filter (fun s => s.success == false)).length ≤ 1 := by
  induction ts with
  | nil =>
    intro i d
    simp [execLoop]
  | cons task rest ih =>
    intro i d
    cases hg : getHandler (kindOf task) with
    | none =>
      rw [execLoop_cons_none n i d task rest hg]
      simp [noHandlerOut]
    | some h =>
      cases hr : h d task with
      | ok nd =>
        rw [execLoop_cons_ok n i d nd task rest h hg hr]
        simp only [okOut, List.filter_cons]
        simpa using ih (i + 1) nd
      | error e =>
        rw [execLoop_cons_error n i d task rest h e hg hr]
        simp [failOut]

theorem execLoop_frontSuccess (n : Nat) (ts : List Json) :
    ∀ (i : Nat) (d : Table) (j : Nat),
    j + 1 < (execLoop n i d ts).plan.length →
    ((execLoop n i d ts).plan.getD j StepRecord.dflt).success = true := by
  induction ts with
  | nil =>
    intro i d j hj
    simp [execLoop] at hj
  | cons task rest ih =>
    intro i d j hj
    cases hg : getHandler (kindOf task) with
    | none =>
      rw [execLoop_cons_none n i d task rest hg] at hj
      simp [noHandlerOut] at hj
    | some h =>
      cases hr : h d task with
      | ok nd =>
        rw [execLoop_cons_ok n i d nd task rest h hg hr] at hj ⊢
        simp only [okOut, List.length_cons, Nat.add_lt_add_iff_right] at hj ⊢
        cases j with
        | zero => rfl
        | succ j2 =>
          simp only [List.getD_cons_succ]
          exact ih (i + 1) nd j2 (by omega)
      | error e =>
        rw [execLoop_cons_error n i d task rest h e hg hr] at hj
        simp [failOut] at hj

theorem execLoop_indices (n : Nat) (ts : List Json) :
    ∀ (i : Nat) (d : Table),
    (execLoop n i d ts).plan.map (fun s => s.task_index)
      = List.range' i (execLoop n i d ts).plan.length := by
  induction ts with
  | nil =>
    intro i d
    simp [execLoop]
  | cons task rest ih =>
    intro i d
    cases hg : getHandler (kindOf task) with
    | none =>
      rw [execLoop_cons_none n i d task rest hg]
      simp [noHandlerOut]
    | some h =>
      cases hr : h d task with
      | ok nd =>
        rw [execLoop_cons_ok n i d nd task rest h hg hr]
        simp only [okOut, List.map_cons, List.length_cons, List.range'_succ]
        rw [ih (i + 1) nd]
      | error e =>
        rw [execLoop_cons_error n i d task rest h e hg hr]
        simp [failOut, List.range'_succ]

theorem execLoop_errors_iff (n : Nat) (ts : List Json) :
    ∀ (i : Nat) (d : Table),
    (execLoop n i d ts).errors = []
      ↔ ((execLoop n i d ts).plan.length = ts.length
         ∧ ∀ rec ∈ (execLoop n i d ts).plan, rec.success = true) := by
  induction ts with
  | nil =>
    intro i d
    simp [execLoop]
  | cons task rest ih =>
    intro i d
    cases hg : getHandler (kindOf task) with
    | none =>
      rw [execLoop_cons_none n i d task rest hg]
      simp [noHandlerOut]
    | some h =>
      cases hr : h d task with
      | ok nd =>
        rw [execLoop_cons_ok n i d nd task rest h hg hr]
        simp only [okOut, List.length_cons, Nat.add_right_cancel_iff, List.mem_cons]
        constructor
        · intro he
          rcases (ih (i + 1) nd).mp he with ⟨hl, hs⟩
          refine ⟨hl, ?_⟩
          intro rec hrec
          rcases hrec with hrec | hrec
          · rw [hrec]
          · exact hs rec hrec
        · intro hh
          exact (ih (i + 1) nd).mpr ⟨hh.1, fun rec hrec => hh.2 rec (Or.inr hrec)⟩
      | error e =>
        rw [execLoop_cons_error n i d task rest h e hg hr]
        simp only [failOut, List.length_cons, Nat.add_right_cancel_iff, List.mem_cons]
        constructor
        · intro he
          exact absurd he (by simp)
        · intro hh
          have := hh.2 ⟨i, kindOf task, task, false, some e⟩ (by simp)
          simp at this

theorem execute_valid (program : List (String × Json)) (input : Option Table)
    (hv : validate_program program = []) :
    execute program input
      = ⟨some (execLoop (pipelineTasks program).length 0 (input.getD Table.emptyTable)
            (pipelineTasks program)).data,
         "Program validation passed"
           :: (execLoop (pipelineTasks program).length 0 (input.getD Table.emptyTable)
                (pipelineTasks program)).logs,
         (execLoop (pipelineTasks program).length 0 (input.getD Table.emptyTable)
           (pipelineTasks program)).errors,
         (execLoop (pipelineTasks program).length 0 (input.getD Table.emptyTable)
           (pipelineTasks program)).plan⟩ := by
  unfold execute
  rw [hv]

theorem execute_invalid (program : List (String × Json)) (input : Option Table)
    (e : VError) (es : List VError)
    (hv : validate_program program = e :: es) :
    execute program input
      = ⟨none, [], (e :: es).map (fun er => er.path ++ ": " ++ er.message), []⟩ := by
  unfold execute
  rw [hv]

/-- C3: in every execution result, at most one step record fails, every
record except possibly the last succeeds, the recorded indices are exactly
`0..len-1` (so no record exists past the failing one), and `errors` is empty
exactly when validation passed and every pipeline step ran and succeeded. -/

theorem claimC3_theorem (program : List (String × Json)) (input : Option Table) :
    ((execute program input).execution_plan.filter
        (fun s => s.success == false)).length ≤ 1
    ∧ (∀ j, j + 1 < (execute program input).execution_plan.length →
        ((execute program input).execution_plan.getD j StepRecord.dflt).success = true)
    ∧ ((execute program input).execution_plan.map (fun s => s.task_index)
        = List.range (execute program input).execution_plan.length)
    ∧ ((execute program input).errors = []
        ↔ validate_program program = []
          ∧ (execute program input).execution_plan.length
              = (pipelineTasks program).length
          ∧ ∀ rec ∈ (execute program input).execution_plan, rec.success = true) := by
  cases hv : validate_program program with
  | nil =>
    rw [execute_valid program input hv]
    refine ⟨?_, ?_, ?_, ?_⟩
    · exact execLoop_failCount _ _ 0 _
    · exact execLoop_frontSuccess _ _ 0 _
    · rw [List.range_eq_range']
      exact execLoop_indices _ _ 0 _
    · simp only [hv, true_and]
      exact execLoop_errors_iff _ _ 0 _
  | cons e es =>
    rw [execute_invalid program input e es hv]
    refine ⟨by simp, ?_, by simp, ?_⟩
    · intro j hj
      simp at hj
    · constructor
      · intro he
        simp at he
      · intro hh
        exact absurd hh.1 (by simp)

/-- C3 witness: the invariants instantiated on a concrete run whose second
step fails; the non-final record is the successful one. -/

theorem claimC3_witness :
    ((execute c3wProg (some ⟨1, [("x", [Json.i 1])]⟩)).execution_plan.getD 0
      StepRecord.dflt).success = true :=
  (claimC3_theorem c3wProg (some ⟨1, [("x", [Json.i 1])]⟩)).2.1 0 (by decide)

/-! ## Explainer totality boundary (C4) -/

theorem taskDetail_safe (kind : String) (kvs : List (String × Json))
    (h1 : kind = "filter" → kindFieldOk kvs "condition" = true)
    (h2 : kind = "sort" → kindFieldOk kvs "operation" = true)
    (h3 : kind = "transform" → kindFieldOk kvs "mapping" = true)
    (h4 : kind = "model_call" → promptOk kvs = true) :
    (taskDetail kind kvs).isSome = true := by
  unfold taskDetail
  by_cases hf : (kind == "filter") = true
  · have hok := h1 (eq_of_beq hf)
    rw [if_pos hf]
    cases hc : lookupJ kvs "condition" with
    | none => rfl
    | some j =>
      cases j with
      | obj c => rfl
      | s v => simp [kindFieldOk, hc] at hok
      | i v => simp [kindFieldOk, hc] at hok
      | b v => simp [kindFieldOk, hc] at hok
      | null => simp [kindFieldOk, hc] at hok
      | arr xs => simp [kindFieldOk, hc] at hok
  · rw [if_neg hf]
    by_cases hs : (kind == "sort") = true
    · have hok := h2 (eq_of_beq hs)
      rw [if_pos hs]
      cases hc : lookupJ kvs "operation" with
      | none => rfl
      | some j =>
        cases j with
        | obj c => rfl
        | s v => simp [kindFieldOk, hc] at hok
        | i v => simp [kindFieldOk, hc] at hok
        | b v => simp [kindFieldOk, hc] at hok
        | null => simp [kindFieldOk, hc] at hok
        | arr xs => simp [kindFieldOk, hc] at hok
    · rw [if_neg hs]
      by_cases ht : (kind == "transform") = true
      · have hok := h3 (eq_of_beq ht)
        rw [if_pos ht]
        cases hc : lookupJ kvs "mapping" with
        | none => rfl
        | some j =>
          cases j with
          | obj c => rfl
          | s v => simp [kindFieldOk, hc] at hok
          | i v => simp [kindFieldOk, hc] at hok
          | b v => simp [kindFieldOk, hc] at hok
          | null => simp [kindFieldOk, hc] at hok
          | arr xs => simp [kindFieldOk, hc] at hok
      · rw [if_neg ht]
        by_cases hm : (kind == "model_call") = true
        · have hok := h4 (eq_of_beq hm)
          rw [if_pos hm]
          cases hc : lookupJ kvs "prompt" with
          | none => rfl
          | some j =>
            cases j with
            | s p => rfl
            | arr xs => rfl
            | obj c => simp [promptOk, hc] at hok
            | i v => simp [promptOk, hc] at hok
            | b v => simp [promptOk, hc] at hok
            | null => simp [promptOk, hc] at hok
        · rw [if_neg hm]
          rfl

theorem explainTask_safe (i : Nat) (task : Json)
    (h : taskExplainSafe task = true) :
    (explainTask i task).isSome = true := by
  cases task with
  | obj kvs =>
    simp only [taskExplainSafe] at h
    cases hk : lookupJ kvs "task" with
    | none =>
      rw [hk] at h
      simp at h
    | some kj =>
      rw [hk] at h
      cases kj with
      | s kind =>
        simp only [Bool.and_eq_true, Bool.or_eq_true, bne_iff_ne, ne_eq] at h
        obtain ⟨ha, hb, hc, hd⟩ := h
        simp only [explainTask]
        rw [hk]
        show (Option.map
          (fun d => toString (i + 1) ++ ". **" ++ pyUpper kind ++ "** task\n" ++ d ++ "\n")
          (taskDetail kind kvs)).isSome = true
        have hdet := taskDetail_safe kind kvs
          (fun he => ha.resolve_left (fun hne => hne he))
          (fun he => hb.resolve_left (fun hne => hne he))
          (fun he => hc.resolve_left (fun hne => hne he))
          (fun he => hd.resolve_left (fun hne => hne he))
        cases hdo : taskDetail kind kvs with
        | none =>
          rw [hdo] at hdet
          simp at hdet
        | some d => rfl
      | i v => simp at h
      | b v => simp at h
      | null => simp at h
      | arr xs => simp at h
      | obj o => simp at h
  | s v => simp [taskExplainSafe] at h
  | i v => simp [taskExplainSafe] at h
  | b v => simp [taskExplainSafe] at h
  | null => simp [taskExplainSafe] at h
  | arr xs => simp [taskExplainSafe] at h

theorem explainAll_safe (ts : List Json) :
    ∀ i : Nat, ts.all taskExplainSafe = true →
    (explainAll i ts).isSome = true := by
  induction ts with
  | nil =>
    intro i _
    rfl
  | cons t rest ih =>
    intro i hall
    simp only [List.all_cons, Bool.and_eq_true] at hall
    have h1 := explainTask_safe i t hall.1
    simp only [explainAll]
    cases ho : explainTask i t with
    | none =>
      rw [ho] at h1
      simp at h1
    | some s =>
      have h2 := ih (i + 1) hall.2
      cases h2o : explainAll (i + 1) rest with
      | none =>
        rw [h2o] at h2
        simp at h2
      | some rest2 => rfl

/-- C4 (amended): `explain` never raises and returns a string for every
program whose `pipeline` is a list of explainer-safe tasks (objects with a
string `task` field whose kind-specific fields, when present, have the
dereferenced shapes); a missing `pipeline` yields the fixed string.  The
placeholder behaviour is kind-dependent: a filter with no condition renders
`"unknown"` for all three subfields, a sort with an empty operation renders
`"unknown"` for the field but falls back to `"asc"` for the order, and a
transform with no mapping renders an empty field list instead of
`"unknown"`. -/

theorem claimC4_theorem :
    (∀ (program : List (String × Json)) (tasks : List Json),
      lookupJ program "pipeline" = some (Json.arr tasks) →
      tasks.all taskExplainSafe = true →
      (explain program).isSome = true)
    ∧ (∀ program : List (String × Json),
      lookupJ program "pipeline" = none →
      explain program = some "Invalid program: missing pipeline")
    ∧ explain [("pipeline", Json.arr [Json.obj [("task", Json.s "filter")]])]
      = some ("This AION program contains 1 tasks:\n\n1. **FILTER** task\n"
          ++ "   - Filters data where unknown unknown unknown\n\n")
    ∧ explain [("pipeline", Json.arr
        [Json.obj [("task", Json.s "sort"), ("operation", Json.obj [])]])]
      = some ("This AION program contains 1 tasks:\n\n1. **SORT** task\n"
          ++ "   - Sorts data by unknown in ascending order\n\n")
    ∧ explain [("pipeline", Json.arr [Json.obj [("task", Json.s "transform")]])]
      = some ("This AION program contains 1 tasks:\n\n1. **TRANSFORM** task\n"
          ++ "   - Transforms fields: []\n\n") := by
  refine ⟨?_, ?_, rfl, rfl, rfl⟩
  · intro program tasks hp hall
    unfold explain
    rw [hp]
    show (Option.map
      (fun body => "This AION program contains " ++ toString tasks.length ++ " tasks:\n\n" ++ body)
      (explainAll 0 tasks)).isSome = true
    have hbody := explainAll_safe tasks 0 hall
    cases hb : explainAll 0 tasks with
    | none =>
      rw [hb] at hbody
      simp at hbody
    | some body => rfl
  · intro program hp
    unfold explain
    rw [hp]

/-- C4 counterexample: the pipeline is present, yet `explain` raises (a
`KeyError` on `task["task"]`, modelled as `none`) on a task that is an
object without a `task` field. -/

theorem claimC4_counterexample :
    explain [("pipeline", Json.arr [Json.obj []])] = none := rfl

/-- C4 witness: the amended totality statement applied to a concrete
explainer-safe program. -/

theorem claimC4_witness :
    (explain [("pipeline", Json.arr
      [Json.obj [("task", Json.s "model_call"), ("prompt", Json.s "Summarize")],
       Json.obj [("task", Json.s "export"), ("file_path", Json.s "o.csv")]])]).isSome
      = true :=
  claimC4_theorem.1 _
    [Json.obj [("task", Json.s "model_call"), ("prompt", Json.s "Summarize")],
     Json.obj [("task", Json.s "export"), ("file_path", Json.s "o.csv")]]
    rfl rfl
